import Mathlib

/-!
Verification of the script-generator program (src/new.py): a shallow
embedding of its text sanitizer, length-adjustment policy, character
store and export pipeline, with theorems checking the specification
claims. Strings are modelled as List Char; Python code points map to
Lean Char code points.
-/

/-- Whitespace per Python str.isspace and the regex class backslash-s
(Unicode whitespace set used by CPython for str). -/
def pyIsSpace (c : Char) : Bool :=
  let n := c.toNat
  n == 0x9 || n == 0xA || n == 0xB || n == 0xC || n == 0xD ||
  n == 0x1C || n == 0x1D || n == 0x1E || n == 0x1F || n == 0x20 ||
  n == 0x85 || n == 0xA0 || n == 0x1680 || (0x2000 ≤ n && n ≤ 0x200A) ||
  n == 0x2028 || n == 0x2029 || n == 0x202F || n == 0x205F || n == 0x3000

/-- Python str.strip: drop leading and trailing whitespace. -/
def pyStrip (s : List Char) : List Char :=
  ((s.dropWhile pyIsSpace).reverse.dropWhile pyIsSpace).reverse

/-- Python substring test (the in operator on str). -/
def containsSub : List Char → List Char → Bool
  | pat, [] => pat.isEmpty
  | pat, c :: rest => pat.isPrefixOf (c :: rest) || containsSub pat rest

/-- The characterization of the Bool prefix test as the prefix order. -/
theorem isPrefixOf_iff {l₁ l₂ : List Char} : l₁.isPrefixOf l₂ = true ↔ l₁ <+: l₂ :=
  List.isPrefixOf_iff_prefix

/-- Python str.replace old new, scanning left to right and replacing
every non-overlapping occurrence. The first argument is recursion fuel;
one unit is spent per position examined, and a nonempty match always
consumes at least one character, so fuel equal to the length of the
string suffices (the zero-fuel arm is never reached from pyReplace). -/
def pyReplaceAux (old new : List Char) : Nat → List Char → List Char
  | _, [] => []
  | 0, s => s
  | fuel + 1, c :: rest =>
    cond (!old.isEmpty && old.isPrefixOf (c :: rest))
      (new ++ pyReplaceAux old new fuel (List.drop old.length (c :: rest)))
      (c :: pyReplaceAux old new fuel rest)

def pyReplace (old new : List Char) (s : List Char) : List Char :=
  pyReplaceAux old new s.length s

/-- Apply a list of (old, new) replacement pairs in order, as the source
does with its two replacement tables. -/
def applyPairs (pairs : List (List Char × List Char)) (s : List Char) : List Char :=
  pairs.foldl (fun acc p => pyReplace p.1 p.2 acc) s

/-- count_words from src/new.py line 267: number of code points matched by
the regex character class from backslash-u4e00 to backslash-u9fa5. -/
def countWords (t : List Char) : Nat :=
  (t.filter (fun c => 0x4E00 ≤ c.toNat && c.toNat ≤ 0x9FA5)).length

/-- The CJK Unified Ideographs block U+4E00..U+9FFF, as the words of the
spec describe the counting range (the sanitizer at line 457 also uses
this block). Second definition kept for comparison with countWords. -/
def countIdeographsSpec (t : List Char) : Nat :=
  (t.filter (fun c => 0x4E00 ≤ c.toNat && c.toNat ≤ 0x9FFF)).length

/-- The accidental seven-character key produced by the triple-quote parse
of src/new.py line 375: colon, space, double quote, apostrophe, double
quote, comma, space. -/
def quoteKey : List Char := [':', ' ', '"', Char.ofNat 39, '"', ',', ' ']

/-- punctuation_map from clean_text_for_pdf (src/new.py lines 372-379).
Python dict semantics applied: of the 26 literal entries the plain double
quote key appears twice with the same value, leaving 25 entries in first
insertion order. Line 375 of the source holds straight ASCII quotes, so
it parses as two identical entries mapping a double quote to itself plus
one entry with key quoteKey whose value is a single apostrophe. -/
def punctuationMap : List (List Char × List Char) :=
  [("：".data, ": ".data), ("，".data, ", ".data), ("。".data, ". ".data),
   ("？".data, "? ".data), ("！".data, "! ".data),
   ("（".data, "(".data), ("）".data, ")".data), ("【".data, "[".data),
   ("】".data, "]".data), ("『".data, "[".data), ("』".data, "]".data),
   ("\"".data, "\"".data),
   (quoteKey, [Char.ofNat 39]),
   ("—".data, "-".data), ("–".data, "-".data), ("…".data, "...".data),
   ("、".data, ", ".data), ("；".data, "; ".data), ("｜".data, "|".data),
   ("〈".data, "<".data), ("〉".data, ">".data), ("《".data, "<".data),
   ("》".data, ">".data), ("「".data, "[".data), ("」".data, "]".data)]

/-- chinese_words from clean_text_for_pdf (src/new.py lines 386-443).
Python dict semantics applied to the 248 literal entries: 13 keys are
written twice, the first position and the last value are kept, leaving
235 entries in first insertion order. -/
def chineseWordsStr : List (String × String) := [
  ("的", "de"), ("了", "le"), ("在", "zai"), ("是", "shi"), ("我", "wo"), ("有", "you"),
  ("和", "he"), ("就", "jiu"), ("不", "bu"), ("人", "ren"), ("都", "dou"), ("一", "yi"),
  ("个", "ge"), ("上", "shang"), ("也", "ye"), ("很", "hen"), ("到", "dao"), ("说", "shuo"),
  ("要", "yao"), ("去", "qu"), ("你", "ni"), ("会", "hui"), ("着", "zhe"), ("没", "mei"),
  ("看", "kan"), ("好", "hao"), ("自", "zi"), ("己", "ji"), ("面", "mian"), ("前", "qian"),
  ("最", "zui"), ("新", "xin"), ("他", "ta"), ("她", "ta"), ("它", "ta"), ("们", "men"),
  ("这", "zhe"), ("那", "na"), ("什", "shen"), ("么", "me"), ("哪", "na"), ("里", "li"),
  ("怎", "zen"), ("样", "yang"), ("多", "duo"), ("少", "shao"), ("几", "ji"), ("来", "lai"),
  ("走", "zou"), ("跑", "pao"), ("飞", "fei"), ("游", "you"), ("坐", "zuo"), ("站", "zhan"),
  ("躺", "tang"), ("吃", "chi"), ("喝", "he"), ("睡", "shui"), ("醒", "xing"), ("想", "xiang"),
  ("知", "zhi"), ("道", "dao"), ("听", "ting"), ("做", "zuo"), ("给", "gei"), ("拿", "na"),
  ("放", "fang"), ("开", "kai"), ("关", "guan"), ("买", "mai"), ("卖", "mai"), ("找", "zhao"),
  ("等", "deng"), ("帮", "bang"), ("打", "da"), ("写", "xie"), ("读", "du"), ("学", "xue"),
  ("教", "jiao"), ("大", "da"), ("小", "xiao"), ("高", "gao"), ("低", "di"), ("长", "chang"),
  ("短", "duan"), ("宽", "kuan"), ("窄", "zhai"), ("快", "kuai"), ("慢", "man"), ("早", "zao"),
  ("晚", "wan"), ("旧", "jiu"), ("年", "nian"), ("轻", "qing"), ("美", "mei"), ("丑", "chou"),
  ("胖", "pang"), ("瘦", "shou"), ("强", "qiang"), ("弱", "ruo"), ("聪", "cong"), ("明", "ming"),
  ("东", "dong"), ("南", "nan"), ("西", "xi"), ("北", "bei"), ("中", "zhong"), ("内", "nei"),
  ("外", "wai"), ("左", "zuo"), ("右", "you"), ("后", "hou"), ("旁", "pang"), ("边", "bian"),
  ("间", "jian"), ("处", "chu"), ("月", "yue"), ("日", "ri"), ("天", "tian"), ("时", "shi"),
  ("分", "fen"), ("秒", "miao"), ("今", "jin"), ("昨", "zuo"), ("现", "xian"), ("过", "guo"),
  ("将", "jiang"), ("未", "wei"), ("春", "chun"), ("夏", "xia"), ("秋", "qiu"), ("冬", "dong"),
  ("午", "wu"), ("夜", "ye"), ("家", "jia"), ("校", "xiao"), ("园", "yuan"), ("公", "gong"),
  ("司", "si"), ("店", "dian"), ("场", "chang"), ("路", "lu"), ("街", "jie"), ("桥", "qiao"),
  ("山", "shan"), ("水", "shui"), ("河", "he"), ("海", "hai"), ("城", "cheng"), ("市", "shi"),
  ("镇", "zhen"), ("村", "cun"), ("国", "guo"), ("省", "sheng"), ("县", "xian"), ("剧", "ju"),
  ("本", "ben"), ("角", "jue"), ("色", "se"), ("演", "yan"), ("员", "yuan"), ("导", "dao"),
  ("编", "bian"), ("制", "zhi"), ("片", "pian"), ("电", "dian"), ("影", "ying"), ("视", "shi"),
  ("频", "pin"), ("舞", "wu"), ("台", "tai"), ("话", "hua"), ("音", "yin"), ("乐", "le"),
  ("歌", "ge"), ("爱", "ai"), ("恨", "hen"), ("喜", "xi"), ("欢", "huan"), ("怒", "nu"),
  ("哀", "ai"), ("兴", "xing"), ("伤", "shang"), ("心", "xin"), ("害", "hai"), ("怕", "pa"),
  ("担", "dan"), ("紧", "jin"), ("张", "zhang"), ("松", "song"), ("平", "ping"), ("静", "jing"),
  ("激", "ji"), ("动", "dong"), ("什么", "shenme"), ("怎么", "zenme"), ("为什么", "weishenme"), ("那么", "name"),
  ("这么", "zheme"), ("不过", "buguo"), ("但是", "danshi"), ("然而", "ranér"), ("因为", "yinwei"), ("所以", "suoyi"),
  ("如果", "ruguo"), ("要是", "yaoshi"), ("虽然", "suiran"), ("虽说", "suishuo"), ("尽管", "jinguan"), ("可能", "keneng"),
  ("也许", "yexu"), ("大概", "dagai"), ("应该", "yinggai"), ("必须", "bixu"), ("已经", "yijing"), ("正在", "zhengzai"),
  ("刚才", "gangcai"), ("现在", "xianzai"), ("以后", "yihou"), ("学校", "xuexiao"), ("老师", "laoshi"), ("学生", "xuesheng"),
  ("同学", "tongxue"), ("朋友", "pengyou"), ("家人", "jiaren"), ("父亲", "fuqin"), ("母亲", "muqin"), ("儿子", "erzi"),
  ("女儿", "nüer"), ("哥哥", "gege"), ("姐姐", "jiejie"), ("弟弟", "didi"), ("妹妹", "meimei"), ("爷爷", "yeye"),
  ("奶奶", "nainai")
]

/-- chinese_words as replacement pairs over List Char. -/
def chineseWords : List (List Char × List Char) :=
  chineseWordsStr.map (fun p => (p.1.data, p.2.data))

/-- Stable insertion into a list sorted by key length descending: the new
pair goes before the first pair whose key is not longer, matching the
stability of Python sorted with reverse set. -/
def insertLenDesc (p : List Char × List Char) :
    List (List Char × List Char) → List (List Char × List Char)
  | [] => [p]
  | q :: qs =>
    if p.1.length < q.1.length then q :: insertLenDesc p qs else p :: q :: qs

/-- Stable sort by key length descending, as the source sorts
chinese_words before replacing (src/new.py line 446). -/
def sortLenDesc : List (List Char × List Char) → List (List Char × List Char)
  | [] => []
  | x :: xs => insertLenDesc x (sortLenDesc xs)

/-- The replacement table in the order the source applies it: longest
keys first. -/
def sortedWords : List (List Char × List Char) := sortLenDesc chineseWords

/-- The literal marker emitted for an unmapped CJK character. -/
def cnTok : List Char := ['[', 'C', 'N', ']']

/-- Step 4 of clean_text_for_pdf (src/new.py lines 451-461): keep code
points up to 255, keep whitespace, replace CJK block characters by the
CN marker, replace anything else by a question mark. -/
def charFilter : List Char → List Char
  | [] => []
  | c :: rest =>
    (if c.toNat ≤ 255 then [c]
     else if pyIsSpace c then [c]
     else if 0x4E00 ≤ c.toNat && c.toNat ≤ 0x9FFF then cnTok
     else ['?']) ++ charFilter rest

/-- The remainder after one match of the marker-collapsing regex. Its
plus quantifier binds only to the final escaped closing bracket, so a
match is the seven literal characters bracket C N bracket bracket C N
followed by a maximal run of closing brackets: the remainder drops those
seven characters and then every following closing bracket. -/
def cnMatchRest (s : List Char) : List Char :=
  (s.drop 7).dropWhile (fun d => d == ']')

theorem cnMatchRest_sublist (s : List Char) : (cnMatchRest s).Sublist s :=
  (List.dropWhile_suffix _).sublist.trans (List.drop_suffix 7 s).sublist

/-- The first substitution of step 5 (src/new.py line 464): the regex sub
on the doubled CN marker pattern, scanning leftmost with greedy matches.
A match begins exactly where the eight characters of two consecutive
markers stand (seven literals and at least one closing bracket), and it
consumes the seven literals plus the maximal run of closing brackets,
leaving one marker: three consecutive markers therefore collapse to two,
and extra closing brackets after a doubled marker are swallowed. Fuel
counts positions examined; a match consumes at least eight characters,
so fuel equal to the string length suffices and the zero-fuel arm is
never reached from collapseCN. -/
def collapseCNAux : Nat → List Char → List Char
  | _, [] => []
  | 0, s => s
  | fuel + 1, c :: rest =>
    cond ((cnTok ++ cnTok).isPrefixOf (c :: rest))
      (cnTok ++ collapseCNAux fuel (cnMatchRest (c :: rest)))
      (c :: collapseCNAux fuel rest)

def collapseCN (s : List Char) : List Char := collapseCNAux s.length s

/-- The second substitution of step 5 (src/new.py line 465): the regex sub
replacing each maximal whitespace run by one space. Fuel counts positions
examined; each step consumes at least one character, so fuel equal to the
string length suffices and the zero-fuel arm is never reached from
collapseWS. -/
def collapseWSAux : Nat → List Char → List Char
  | _, [] => []
  | 0, s => s
  | fuel + 1, c :: rest =>
    cond (pyIsSpace c) (' ' :: collapseWSAux fuel (rest.dropWhile pyIsSpace))
      (c :: collapseWSAux fuel rest)

def collapseWS (s : List Char) : List Char := collapseWSAux s.length s

/-- clean_text_for_pdf from src/new.py lines 363-471, the normal path:
punctuation replacement, pinyin word replacement longest first, per
character filtering, marker and whitespace collapsing, strip. -/
def clean_text_for_pdf (t : List Char) : List Char :=
  if t.isEmpty then []
  else
    pyStrip (collapseWS (collapseCN (charFilter
      (applyPairs sortedWords (applyPairs punctuationMap t)))))

/-- The exception fallback of clean_text_for_pdf (src/new.py line 476):
keep code points below 128, replace everything else by a bracketed
question mark. -/
def cleanFallback (t : List Char) : List Char :=
  (t.map (fun c => if c.toNat < 128 then [c] else ['[', '?', ']'])).flatten

/-! ### Sanitizer properties -/

/-- A character a Latin-1 text engine can take: code point at most 255,
or whitespace. -/
def latinOrWS (c : Char) : Bool := decide (c.toNat ≤ 255) || pyIsSpace c

theorem charFilter_safe (s : List Char) : ∀ c ∈ charFilter s, latinOrWS c = true := by
  induction s with
  | nil => intro c hc; simp [charFilter] at hc
  | cons a rest ih =>
    intro c hc
    simp only [charFilter, List.mem_append] at hc
    rcases hc with hc | hc
    · split at hc
      · next ha =>
        simp only [List.mem_singleton] at hc
        subst hc
        simp [latinOrWS, ha]
      · split at hc
        · next ha =>
          simp only [List.mem_singleton] at hc
          subst hc
          simp [latinOrWS, ha]
        · split at hc
          · simp only [cnTok, List.mem_cons, List.not_mem_nil, or_false] at hc
            rcases hc with rfl | rfl | rfl | rfl <;> decide
          · simp only [List.mem_singleton] at hc
            subst hc; decide
    · exact ih c hc

theorem collapseWSAux_zero (s : List Char) : collapseWSAux 0 s = s := by
  cases s <;> rfl

theorem collapseWSAux_succ_ws {fuel : Nat} {c : Char} {rest : List Char}
    (h : pyIsSpace c = true) :
    collapseWSAux (fuel + 1) (c :: rest)
      = ' ' :: collapseWSAux fuel (rest.dropWhile pyIsSpace) := by
  rw [collapseWSAux, h]
  rfl

theorem collapseWSAux_succ_not {fuel : Nat} {c : Char} {rest : List Char}
    (h : pyIsSpace c = false) :
    collapseWSAux (fuel + 1) (c :: rest) = c :: collapseWSAux fuel rest := by
  rw [collapseWSAux, h]
  rfl

theorem collapseCNAux_zero (s : List Char) : collapseCNAux 0 s = s := by
  cases s <;> rfl

theorem collapseCNAux_succ_pos {fuel : Nat} {c : Char} {rest : List Char}
    (h : (cnTok ++ cnTok).isPrefixOf (c :: rest) = true) :
    collapseCNAux (fuel + 1) (c :: rest)
      = cnTok ++ collapseCNAux fuel (cnMatchRest (c :: rest)) := by
  rw [collapseCNAux, h]
  rfl

theorem collapseCNAux_succ_neg {fuel : Nat} {c : Char} {rest : List Char}
    (h : (cnTok ++ cnTok).isPrefixOf (c :: rest) = false) :
    collapseCNAux (fuel + 1) (c :: rest) = c :: collapseCNAux fuel rest := by
  rw [collapseCNAux, h]
  rfl

theorem collapseCNAux_safe (fuel : Nat) :
    ∀ s : List Char, (∀ c ∈ s, latinOrWS c = true) →
      ∀ c ∈ collapseCNAux fuel s, latinOrWS c = true := by
  induction fuel with
  | zero =>
    intro s hs c hc
    rw [collapseCNAux_zero] at hc
    exact hs c hc
  | succ fuel ih =>
    intro s hs c hc
    cases s with
    | nil => simp [collapseCNAux] at hc
    | cons a rest =>
      cases hb : (cnTok ++ cnTok).isPrefixOf (a :: rest) with
      | true =>
        rw [collapseCNAux_succ_pos hb] at hc
        simp only [cnTok, List.cons_append, List.nil_append, List.mem_cons] at hc
        rcases hc with rfl | rfl | rfl | rfl | hc
        · decide
        · decide
        · decide
        · decide
        · exact ih (cnMatchRest (a :: rest)) (fun d hd =>
            hs d ((cnMatchRest_sublist (a :: rest)).subset hd)) c hc
      | false =>
        rw [collapseCNAux_succ_neg hb] at hc
        rcases List.mem_cons.mp hc with rfl | hc
        · exact hs c (by simp)
        · exact ih rest (fun e he => hs e (by simp [he])) c hc

theorem collapseCN_safe (s : List Char) (hs : ∀ c ∈ s, latinOrWS c = true) :
    ∀ c ∈ collapseCN s, latinOrWS c = true :=
  collapseCNAux_safe s.length s hs

theorem collapseWSAux_safe (fuel : Nat) :
    ∀ s : List Char, (∀ c ∈ s, latinOrWS c = true) →
      ∀ c ∈ collapseWSAux fuel s, latinOrWS c = true := by
  induction fuel with
  | zero =>
    intro s hs c hc
    rw [collapseWSAux_zero] at hc
    exact hs c hc
  | succ fuel ih =>
    intro s hs c hc
    cases s with
    | nil => simp [collapseWSAux] at hc
    | cons a rest =>
      cases hb : pyIsSpace a with
      | true =>
        rw [collapseWSAux_succ_ws hb] at hc
        rcases List.mem_cons.mp hc with rfl | hc
        · decide
        · exact ih (rest.dropWhile pyIsSpace)
            (fun e he => hs e (by
              have hmem := (List.dropWhile_suffix (l := rest) pyIsSpace).sublist.subset he
              simp only [List.mem_cons]
              tauto)) c hc
      | false =>
        rw [collapseWSAux_succ_not hb] at hc
        rcases List.mem_cons.mp hc with rfl | hc
        · exact hs c (by simp)
        · exact ih rest (fun e he => hs e (by simp [he])) c hc

theorem collapseWS_safe (s : List Char) (hs : ∀ c ∈ s, latinOrWS c = true) :
    ∀ c ∈ collapseWS s, latinOrWS c = true :=
  collapseWSAux_safe s.length s hs

theorem mem_pyStrip {c : Char} {l : List Char} (h : c ∈ pyStrip l) : c ∈ l := by
  unfold pyStrip at h
  rw [List.mem_reverse] at h
  have h1 := (List.dropWhile_suffix pyIsSpace).sublist.subset h
  rw [List.mem_reverse] at h1
  exact (List.dropWhile_suffix pyIsSpace).sublist.subset h1

/-- Claim C3: the sanitizer output is Latin-1 safe. Every character of
clean_text_for_pdf t (and of the exception fallback cleanFallback t) has
code point at most 255 or is whitespace; both functions are total. -/
theorem c3_sanitizer_latin1_safe (t : List Char) :
    (clean_text_for_pdf t).all latinOrWS = true ∧ (cleanFallback t).all latinOrWS = true := by
  constructor
  · rw [List.all_eq_true]
    intro c hc
    unfold clean_text_for_pdf at hc
    split at hc
    · simp at hc
    · have h1 := mem_pyStrip hc
      exact collapseWS_safe _ (collapseCN_safe _ (charFilter_safe _)) c h1
  · rw [List.all_eq_true]
    intro c hc
    unfold cleanFallback at hc
    rw [List.mem_flatten] at hc
    obtain ⟨l, hl, hcl⟩ := hc
    rw [List.mem_map] at hl
    obtain ⟨a, _, rfl⟩ := hl
    split at hcl
    · next ha =>
      rw [List.mem_singleton] at hcl
      subst hcl
      simp only [latinOrWS, Bool.or_eq_true, decide_eq_true_eq]
      omega
    · simp only [List.mem_cons, List.not_mem_nil, or_false] at hcl
      rcases hcl with rfl | rfl | rfl <;> decide

/-! ### Sanitizer identity on plain input -/

theorem containsSub_eq_false_of_head_not_mem {a : Char} {tl s : List Char}
    (h : a ∉ s) : containsSub (a :: tl) s = false := by
  induction s with
  | nil => rfl
  | cons c rest ih =>
    rw [containsSub]
    have hpre : (a :: tl).isPrefixOf (c :: rest) = false := by
      cases hp : (a :: tl).isPrefixOf (c :: rest) with
      | false => rfl
      | true =>
        rw [isPrefixOf_iff] at hp
        obtain ⟨tt, htt⟩ := hp
        have : a = c := by
          have := congrArg (fun l => l.head?) htt
          simpa using this
        exact absurd (this ▸ List.mem_cons_self a (rest)) h
    rw [hpre, ih (fun hm => h (List.mem_cons_of_mem c hm))]
    rfl

theorem pyReplaceAux_zero (old new s : List Char) : pyReplaceAux old new 0 s = s := by
  cases s <;> rfl

theorem pyReplaceAux_id_of_not_contains {old new : List Char} (fuel : Nat) :
    ∀ s : List Char, containsSub old s = false → pyReplaceAux old new fuel s = s := by
  induction fuel with
  | zero =>
    intro s _
    exact pyReplaceAux_zero old new s
  | succ fuel ih =>
    intro s h
    cases s with
    | nil => rfl
    | cons c rest =>
      rw [containsSub] at h
      have h2 := Bool.or_eq_false_iff.mp h
      rw [pyReplaceAux, h2.1, Bool.and_false, Bool.cond_false, ih rest h2.2]

theorem pyReplace_id_of_not_contains {old new s : List Char}
    (h : containsSub old s = false) : pyReplace old new s = s :=
  pyReplaceAux_id_of_not_contains s.length s h

theorem pyReplaceAux_self (old : List Char) (fuel : Nat) :
    ∀ s : List Char, s.length ≤ fuel → pyReplaceAux old old fuel s = s := by
  induction fuel with
  | zero =>
    intro s hlen
    exact pyReplaceAux_zero old old s
  | succ fuel ihn =>
    intro s hlen
    cases s with
    | nil => rfl
    | cons c rest =>
      cases hcond : (!old.isEmpty && old.isPrefixOf (c :: rest)) with
      | true =>
        rw [pyReplaceAux, hcond, Bool.cond_true]
        rw [Bool.and_eq_true] at hcond
        have hone : 1 ≤ old.length := by
          cases old with
          | nil => simp at hcond
          | cons a t => simp
        obtain ⟨t, ht⟩ := isPrefixOf_iff.mp hcond.2
        rw [← ht, List.drop_left]
        have hlt : t.length ≤ fuel := by
          have h5 := congrArg List.length ht
          simp only [List.length_append, List.length_cons] at h5
          simp only [List.length_cons] at hlen
          omega
        rw [ihn t hlt]
      | false =>
        rw [pyReplaceAux, hcond, Bool.cond_false]
        have hr : rest.length ≤ fuel := by
          simp only [List.length_cons] at hlen
          omega
        rw [ihn rest hr]

theorem pyReplace_self (old s : List Char) : pyReplace old old s = s :=
  pyReplaceAux_self old s.length s (Nat.le_refl _)

theorem applyPairs_id {pairs : List (List Char × List Char)} {s : List Char}
    (h : ∀ p ∈ pairs, pyReplace p.1 p.2 s = s) : applyPairs pairs s = s := by
  induction pairs with
  | nil => rfl
  | cons p ps ih =>
    have hstep : applyPairs (p :: ps) s = applyPairs ps (pyReplace p.1 p.2 s) := rfl
    rw [hstep, h p (List.mem_cons_self p ps)]
    exact ih (fun q hq => h q (List.mem_cons_of_mem p hq))

/-- Key whose first character lies above the Latin-1 range. -/
def keyHeadBig : List Char → Bool
  | [] => false
  | c :: _ => decide (255 < c.toNat)

theorem punct_keys_classified :
    punctuationMap.all (fun p => (p.1 == p.2) || (p.1 == quoteKey) || keyHeadBig p.1) = true := by
  decide

set_option maxRecDepth 4000 in
theorem sorted_keys_big : sortedWords.all (fun p => keyHeadBig p.1) = true := by
  decide

theorem pyReplace_id_of_big_head {old new s : List Char}
    (hbig : keyHeadBig old = true) (hs : ∀ c ∈ s, c.toNat ≤ 255) :
    pyReplace old new s = s := by
  cases old with
  | nil => simp [keyHeadBig] at hbig
  | cons a tl =>
    simp only [keyHeadBig, decide_eq_true_eq] at hbig
    have hnot : a ∉ s := fun hm => by
      have := hs a hm
      omega
    exact pyReplace_id_of_not_contains (containsSub_eq_false_of_head_not_mem hnot)

theorem charFilter_id {s : List Char} (hs : ∀ c ∈ s, c.toNat ≤ 255) :
    charFilter s = s := by
  induction s with
  | nil => rfl
  | cons c rest ih =>
    rw [charFilter, if_pos (hs c (List.mem_cons_self c rest))]
    rw [ih (fun d hd => hs d (List.mem_cons_of_mem c hd))]
    rfl

theorem isPrefixOf_containsSub {pat s : List Char}
    (h : pat.isPrefixOf s = true) : containsSub pat s = true := by
  cases s with
  | nil =>
    rw [isPrefixOf_iff] at h
    have := List.prefix_nil.mp h
    subst this
    rfl
  | cons c rest => rw [containsSub, h]; rfl

theorem collapseCNAux_id (fuel : Nat) :
    ∀ s : List Char, containsSub (cnTok ++ cnTok) s = false →
      collapseCNAux fuel s = s := by
  induction fuel with
  | zero =>
    intro s _
    exact collapseCNAux_zero s
  | succ fuel ih =>
    intro s h
    cases s with
    | nil => rfl
    | cons a rest =>
      have hb : (cnTok ++ cnTok).isPrefixOf (a :: rest) = false := by
        cases hb' : (cnTok ++ cnTok).isPrefixOf (a :: rest) with
        | false => rfl
        | true =>
          rw [isPrefixOf_containsSub hb'] at h
          exact absurd h (by decide)
      rw [collapseCNAux_succ_neg hb]
      rw [containsSub] at h
      have h2 := Bool.or_eq_false_iff.mp h
      rw [ih rest h2.2]

theorem collapseCN_id {s : List Char}
    (h : containsSub (cnTok ++ cnTok) s = false) : collapseCN s = s :=
  collapseCNAux_id s.length s h

/-- No two adjacent whitespace characters. -/
def noConsecWS : List Char → Bool
  | c :: d :: rest => (!(pyIsSpace c && pyIsSpace d)) && noConsecWS (d :: rest)
  | _ => true

theorem noConsecWS_tail {a : Char} {rest : List Char}
    (h : noConsecWS (a :: rest) = true) : noConsecWS rest = true := by
  cases rest with
  | nil => rfl
  | cons d r =>
    rw [noConsecWS, Bool.and_eq_true] at h
    exact h.2

theorem collapseWSAux_id (fuel : Nat) :
    ∀ s : List Char,
      (∀ c ∈ s, pyIsSpace c = true → c = ' ') →
      noConsecWS s = true →
      collapseWSAux fuel s = s := by
  induction fuel with
  | zero =>
    intro s _ _
    exact collapseWSAux_zero s
  | succ fuel ihn =>
    intro s hsp hcc
    cases s with
    | nil => rfl
    | cons a rest =>
      cases hb : pyIsSpace a with
      | true =>
        rw [collapseWSAux_succ_ws hb]
        have ha : a = ' ' := hsp a (List.mem_cons_self a rest) hb
        have hdrop : rest.dropWhile pyIsSpace = rest := by
          cases rest with
          | nil => rfl
          | cons d r =>
            rw [noConsecWS] at hcc
            rw [Bool.and_eq_true] at hcc
            have h1 := hcc.1
            have hd : pyIsSpace d = false := by
              cases hpd : pyIsSpace d with
              | false => rfl
              | true => rw [hb, hpd] at h1; simp at h1
            rw [List.dropWhile_cons, hd]
            rfl
        rw [hdrop, ha]
        rw [ihn rest
          (fun d hd hpd => hsp d (List.mem_cons_of_mem a hd) hpd)
          (noConsecWS_tail hcc)]
      | false =>
        rw [collapseWSAux_succ_not hb]
        rw [ihn rest
          (fun d hd hpd => hsp d (List.mem_cons_of_mem a hd) hpd)
          (noConsecWS_tail hcc)]

theorem collapseWS_id {s : List Char}
    (hsp : ∀ c ∈ s, pyIsSpace c = true → c = ' ')
    (hcc : noConsecWS s = true) : collapseWS s = s :=
  collapseWSAux_id s.length s hsp hcc

/-- Whether a list starts with a whitespace character. -/
def headIsWS : List Char → Bool
  | [] => false
  | c :: _ => pyIsSpace c

theorem dropWhile_eq_self_of_head {s : List Char} (h : headIsWS s = false) :
    s.dropWhile pyIsSpace = s := by
  cases s with
  | nil => rfl
  | cons c rest =>
    rw [headIsWS] at h
    rw [List.dropWhile_cons, h]
    rfl

theorem pyStrip_id {s : List Char} (hh : headIsWS s = false)
    (hl : headIsWS s.reverse = false) : pyStrip s = s := by
  unfold pyStrip
  rw [dropWhile_eq_self_of_head hh, dropWhile_eq_self_of_head hl, List.reverse_reverse]

/-- Claim C4 (amended): the sanitizer is the identity on input that is
Latin-1 only, has no occurrence of the accidental quoteKey replacement
key, no doubled CN marker, whose whitespace is single interior spaces,
and which neither begins nor ends with whitespace. -/
theorem c4_sanitizer_identity_amended (t : List Char)
    (hA : ∀ c ∈ t, c.toNat ≤ 255)
    (hQ : containsSub quoteKey t = false)
    (hCN : containsSub (cnTok ++ cnTok) t = false)
    (hSp : ∀ c ∈ t, pyIsSpace c = true → c = ' ')
    (hCc : noConsecWS t = true)
    (hH : headIsWS t = false)
    (hL : headIsWS t.reverse = false) :
    clean_text_for_pdf t = t := by
  have h1 : applyPairs punctuationMap t = t := by
    apply applyPairs_id
    intro p hp
    have hcls := punct_keys_classified
    rw [List.all_eq_true] at hcls
    have hc := hcls p hp
    rw [Bool.or_eq_true] at hc
    rw [Bool.or_eq_true] at hc
    rcases hc with (hc | hc) | hc
    · rw [eq_of_beq hc]; exact pyReplace_self p.2 t
    · rw [eq_of_beq hc]; exact pyReplace_id_of_not_contains hQ
    · exact pyReplace_id_of_big_head hc hA
  have h2 : applyPairs sortedWords t = t := by
    apply applyPairs_id
    intro p hp
    have hcls := sorted_keys_big
    rw [List.all_eq_true] at hcls
    exact pyReplace_id_of_big_head (hcls p hp) hA
  by_cases ht : t = []
  · subst ht; rfl
  · unfold clean_text_for_pdf
    rw [if_neg (by simpa using ht)]
    rw [h1, h2, charFilter_id hA, collapseCN_id hCN, collapseWS_id hSp hCc,
      pyStrip_id hH hL]

/-- Witness for the amended claim C4 at a concrete plain input. -/
theorem c4_sanitizer_identity_amended_witness :
    ((∀ c ∈ "Hello, world!".data, c.toNat ≤ 255) ∧
     containsSub quoteKey "Hello, world!".data = false ∧
     containsSub (cnTok ++ cnTok) "Hello, world!".data = false ∧
     (∀ c ∈ "Hello, world!".data, pyIsSpace c = true → c = ' ') ∧
     noConsecWS "Hello, world!".data = true ∧
     headIsWS "Hello, world!".data = false ∧
     headIsWS "Hello, world!".data.reverse = false) ∧
    clean_text_for_pdf "Hello, world!".data = "Hello, world!".data :=
  ⟨⟨by decide, by decide, by decide, by decide, by decide, by decide, by decide⟩,
   c4_sanitizer_identity_amended "Hello, world!".data (by decide) (by decide)
     (by decide) (by decide) (by decide) (by decide) (by decide)⟩

set_option maxRecDepth 8000 in
set_option maxHeartbeats 1000000 in
/-- Counterexample to claim C4 as stated: two inputs with no CJK
character and no character of any mapped punctuation key, on which the
sanitizer is not the identity (a newline becomes a space; a non-Latin
non-CJK letter becomes a question mark). -/
theorem c4_sanitizer_identity_counterexample :
    (clean_text_for_pdf ['a', '\n', 'b'] ≠ ['a', '\n', 'b'] ∧
      ['a', '\n', 'b'].all (fun c => !(0x4E00 ≤ c.toNat && c.toNat ≤ 0x9FFF)) = true ∧
      ['a', '\n', 'b'].all
        (fun c => !(punctuationMap.any (fun p => p.1.contains c))) = true) ∧
    (clean_text_for_pdf ['α'] ≠ ['α'] ∧
      ['α'].all (fun c => !(0x4E00 ≤ c.toNat && c.toNat ≤ 0x9FFF)) = true ∧
      ['α'].all
        (fun c => !(punctuationMap.any (fun p => p.1.contains c))) = true) := by
  decide

/-! ### ScriptComposer length policy -/

/-- Outcome of the network call made by call_deepseek_api, an external
collaborator: either a generated answer or a failure description. -/
inductive NetResult where
  | ok : List Char → NetResult
  | err : List Char → NetResult

/-- The in-band configuration error of call_deepseek_api (src/new.py
line 278), returned when no API key is configured. -/
def deepseekMissingKeyMsg : List Char := "错误：未配置 DeepSeek API 密钥。".data

/-- The in-band exception message prefix of call_deepseek_api (src/new.py
line 301). -/
def deepseekExcPrefix : List Char := "调用 DeepSeek API 出错：".data

/-- The error marker substring adjust_script_length tests for (src/new.py
line 315). -/
def errMarker : List Char := "出错".data

/-- call_deepseek_api from src/new.py lines 275-301. The request prompt
and sampling temperature are part of the request; the answer comes from
the network oracle. With no configured key the configuration error
string is returned before any request is made. -/
def call_deepseek_api (apiKey : Option (List Char)) (net : NetResult)
    (prompt : List Char) (temperature : ℚ) : List Char :=
  match apiKey with
  | none => deepseekMissingKeyMsg
  | some _ =>
    match net with
    | NetResult.ok content => content
    | NetResult.err e => deepseekExcPrefix ++ e

/-- A generation request issued to the remote model: prompt text and
sampling temperature. -/
structure ApiCall where
  prompt : List Char
  temperature : ℚ
deriving DecidableEq

/-- Decimal rendering of a number, as Python string interpolation does. -/
def natChars (n : Nat) : List Char := (Nat.repr n).data

/-- The expansion prompt built at src/new.py line 313. -/
def expandPrompt (tmin tmax : Nat) (script : List Char) : List Char :=
  "请将以下剧本扩充到".data ++ natChars tmin ++ "-".data ++ natChars tmax
    ++ "字(仅统计中文字符)，保持内容连贯:".data ++ "\n".data ++ script

/-- Sentence-final punctuation of the truncation split (src/new.py
line 318). -/
def sentEnd (c : Char) : Bool := c == '。' || c == '！' || c == '？'

/-- The re.split with a lookbehind on sentence-final punctuation: the string
is cut right after every sentence-final mark, each piece keeping its
mark; the final piece (possibly empty) carries no mark. -/
def splitSent : List Char → List (List Char)
  | [] => [[]]
  | c :: rest =>
    let ps := splitSent rest
    cond (sentEnd c) ([c] :: ps) ((c :: ps.headD []) :: ps.tail)

/-- The truncation loop of adjust_script_length (src/new.py lines
319-327): greedily append whole sentences while the running ideographic
count stays within the ceiling, stop at the first sentence that would
push past it. -/
def truncateLoop : List (List Char) → List Char → Nat → Nat → List Char
  | [], acc, _, _ => acc
  | p :: ps, acc, cnt, tmax =>
    if tmax < cnt + countWords p then acc
    else truncateLoop ps (acc ++ p) (cnt + countWords p) tmax

/-- adjust_script_length from src/new.py lines 304-331. Besides the
adjusted text it returns the list of follow-up generation requests the
call issued. A zero word limit models the falsy guard of line 306. -/
def adjust_script_length (apiKey : Option (List Char)) (net : NetResult)
    (script : List Char) (word_limit : Nat) : List Char × List ApiCall :=
  if word_limit = 0 then (script, [])
  else
    let current := countWords script
    let target_min := word_limit
    let target_max := word_limit + 100
    if current < target_min then
      let prompt := expandPrompt target_min target_max script
      let expanded := call_deepseek_api apiKey net prompt ((7 : ℚ) / 10)
      (cond (containsSub errMarker expanded) script expanded,
        [⟨prompt, (7 : ℚ) / 10⟩])
    else if target_max < current then
      (pyStrip (truncateLoop (splitSent script) [] 0 target_max), [])
    else (script, [])

/-! ### CharacterStore -/

/-- The eight textual fields of a character profile as the add and
update handlers build them (src/new.py lines 1083-1087). -/
structure Profile where
  name : List Char
  role_type : List Char
  age : List Char
  appearance : List Char
  personality : List Char
  background_story : List Char
  habits : List Char
  relationships : List Char
deriving DecidableEq

/-- A stored character record: the profile fields plus the optional
portrait blob (avatar_image), normalized to be present on every record
as load_characters and add_character do. -/
structure Character where
  name : List Char
  role_type : List Char
  age : List Char
  appearance : List Char
  personality : List Char
  background_story : List Char
  habits : List Char
  relationships : List Char
  avatar_image : Option (List Char)
deriving DecidableEq

/-- Python str.lower restricted to ASCII letters, the only case the
duplicate check exercises. -/
def pyLower (s : List Char) : List Char :=
  s.map (fun c => if 'A' ≤ c ∧ c ≤ 'Z' then Char.ofNat (c.toNat + 32) else c)

/-- CharacterManager.character_exists (src/new.py lines 134-138):
case-insensitive match of the stripped (name, role_type) pair. -/
def character_exists (chars : List Character) (name role_type : List Char) : Bool :=
  chars.any (fun ch =>
    (pyLower (pyStrip ch.name) == pyLower (pyStrip name)) &&
    (pyLower (pyStrip ch.role_type) == pyLower (pyStrip role_type)))

/-- CharacterManager.add_character (src/new.py lines 80-85): the avatar
field is set to none, the record appended, and the file saved (the Bool
records that save_characters ran). -/
def add_character (chars : List Character) (data : Profile) : List Character × Bool :=
  (chars ++ [⟨data.name, data.role_type, data.age, data.appearance, data.personality,
    data.background_story, data.habits, data.relationships, none⟩], true)

/-- CharacterManager.update_character (src/new.py lines 87-98): guarded
by 0 <= index < len; keeps the stored avatar (every record carries the
avatar_image field in this model, as the source normalizes on load and
add), replaces the record, saves. Out of range: silent no-op, no save. -/
def update_character (chars : List Character) (index : Int) (data : Profile) :
    List Character × Bool :=
  if h : 0 ≤ index ∧ index < (chars.length : Int) then
    have hi : index.toNat < chars.length := by omega
    let old := chars.get ⟨index.toNat, hi⟩
    (chars.set index.toNat ⟨data.name, data.role_type, data.age, data.appearance,
      data.personality, data.background_story, data.habits, data.relationships,
      old.avatar_image⟩, true)
  else (chars, false)

/-- CharacterManager.update_character_image (src/new.py lines 100-105). -/
def update_character_image (chars : List Character) (index : Int) (image : List Char) :
    List Character × Bool :=
  if h : 0 ≤ index ∧ index < (chars.length : Int) then
    have hi : index.toNat < chars.length := by omega
    let old := chars.get ⟨index.toNat, hi⟩
    (chars.set index.toNat ⟨old.name, old.role_type, old.age, old.appearance,
      old.personality, old.background_story, old.habits, old.relationships,
      some image⟩, true)
  else (chars, false)

/-- CharacterManager.delete_character (src/new.py lines 107-113). -/
def delete_character (chars : List Character) (index : Int) : List Character × Bool :=
  if 0 ≤ index ∧ index < (chars.length : Int) then
    (chars.eraseIdx index.toNat, true)
  else (chars, false)

/-- The user-facing outcome of the add handler. -/
inductive HandlerMsg where
  | emptyName
  | duplicate
  | added
deriving DecidableEq

/-- add_character_handler (src/new.py lines 1072-1090): strip the name
and role, reject an empty name, reject a duplicate before any mutation,
otherwise strip every field and add. The Bool records whether the
persisted file was written. -/
def add_character_handler (chars : List Character) (inputs : Profile) :
    List Character × Bool × HandlerMsg :=
  let name := pyStrip inputs.name
  let role_type := pyStrip inputs.role_type
  if name.isEmpty then (chars, false, HandlerMsg.emptyName)
  else if character_exists chars name role_type then (chars, false, HandlerMsg.duplicate)
  else
    let data : Profile := ⟨pyStrip inputs.name, pyStrip inputs.role_type,
      pyStrip inputs.age, pyStrip inputs.appearance, pyStrip inputs.personality,
      pyStrip inputs.background_story, pyStrip inputs.habits,
      pyStrip inputs.relationships⟩
    let r := add_character chars data
    (r.1, r.2, HandlerMsg.added)

/-! ### DocumentExporter -/

/-- The sixty-character banner line of the text export. -/
def eq60 : List Char := List.replicate 60 '='

/-- The decorative header of create_enhanced_text_export (src/new.py
lines 489-498), parameterized by the formatted timestamp and carrying
the ideographic word count. -/
def exportHeader (ts : List Char) (wc : Nat) : List Char :=
  "\n".data ++ eq60 ++ "\n🎭 剧本导出 / Script Export\n".data ++ eq60
    ++ "\n📅 导出时间: ".data ++ ts
    ++ "\n📊 内容字数: ".data ++ natChars wc
    ++ " 字 (仅中文字符)\n📄 格式说明: UTF-8编码，完全保留中文字符\n".data
    ++ eq60 ++ "\n\n".data

/-- The decorative footer of create_enhanced_text_export (src/new.py
lines 500-508). -/
def exportFooter : List Char :=
  "\n\n".data ++ eq60
    ++ "\n✅ 导出完成 / Export Complete\n📝 文件格式: UTF-8 纯文本\n💡 建议使用: 记事本、VS Code、或任何支持UTF-8的文本编辑器打开\n📧 问题反馈: yuntongxu7@gmail.com\n".data
    ++ eq60 ++ "\n".data

/-- create_enhanced_text_export (src/new.py lines 480-523): the content
written to the artifact is header, then the input text verbatim, then
the footer. -/
def create_enhanced_text_export (ts : List Char) (text : List Char) : List Char :=
  exportHeader ts (countWords text) ++ text ++ exportFooter

/-- Read back the region of a file between a prefix of the given length
and a suffix of the given length. -/
def extractBetween (hlen flen : Nat) (content : List Char) : List Char :=
  (content.drop hlen).take (content.length - hlen - flen)

/-- A font asset on disk: its byte size and its leading bytes. -/
structure FontFile where
  size : Nat
  headerBytes : List Char

/-- The Git LFS pointer signature sniffed at src/new.py line 603. -/
def lfsSig : List Char := "version https://git-lfs.github.com".data

/-- The font resolution of export_pdf_with_status (src/new.py lines
593-613): the asset is used only if present, over 1000000 bytes, free of
the LFS pointer signature in its first 100 bytes, and accepted by the
PDF library (the addFontOk oracle models the try block around
add_font). -/
def fontUsable (font : Option FontFile) (addFontOk : Bool) : Bool :=
  match font with
  | none => false
  | some f =>
    cond (decide (1000000 < f.size))
      (cond (containsSub lfsSig (f.headerBytes.take 100)) false addFontOk)
      false

/-- Python str.split on the newline separator. -/
def splitOnNl : List Char → List (List Char)
  | [] => [[]]
  | c :: rest =>
    let ps := splitOnNl rest
    cond (c == '\n') ([] :: ps) ((c :: ps.headD []) :: ps.tail)

/-- Python str.split on the space separator. -/
def splitOnSpace : List Char → List (List Char)
  | [] => [[]]
  | c :: rest =>
    let ps := splitOnSpace rest
    cond (c == ' ') ([] :: ps) ((c :: ps.headD []) :: ps.tail)

/-- Whether a line survives the latin-1 encode probe of the renderer. -/
def latin1OK (l : List Char) : Bool := l.all (fun c => decide (c.toNat < 256))

/-- The defensive stripping of characters outside latin-1 (src/new.py
lines 665, 675, 683). -/
def latin1Filter (l : List Char) : List Char := l.filter (fun c => decide (c.toNat < 256))

/-- The cell emitted for an accumulated wrapped line: stripped, after
the latin-1 probe and fallback (src/new.py lines 660-667). -/
def wrapCell (cur : List Char) : List Char :=
  cond (latin1OK cur) (pyStrip cur) (pyStrip (latin1Filter cur))

/-- The greedy word-wrap loop of the renderer (src/new.py lines
654-677): accumulate words while the running length stays within 85,
emit the stripped cell on overflow and at the end; an all-whitespace
accumulator emits nothing. -/
def wrapLoop : List (List Char) → List Char → List (List Char)
  | [], cur => cond (pyStrip cur).isEmpty [] [wrapCell cur]
  | w :: ws, cur =>
    cond (decide ((cur ++ w ++ [' ']).length ≤ 85))
      (wrapLoop ws (cur ++ w ++ [' ']))
      ((cond (pyStrip cur).isEmpty [] [wrapCell cur]) ++ wrapLoop ws (w ++ [' ']))

/-- The cells rendered for one source line (src/new.py lines 649-685):
long lines are word-wrapped, short lines become one cell after the
latin-1 probe. -/
def renderLine (line : List Char) : List (List Char) :=
  cond (decide (85 < line.length))
    (wrapLoop (splitOnSpace line) [])
    [cond (latin1OK line) line (latin1Filter line)]

/-- The body cells of the document: blank lines emit only a vertical
gap, every other line is rendered (src/new.py lines 642-687). -/
def renderLines (lines : List (List Char)) : List (List Char) :=
  (lines.map (fun l => cond (pyStrip l).isEmpty [] (renderLine l))).flatten

/-- The reported outcome of the PDF export. -/
inductive ExportStatus where
  | noContent
  | pdfFull
  | pdfConverted
  | downgradedText
  | failed
deriving DecidableEq

/-- The artifact handed back: a PDF holding the rendered body cells and
its byte size, or the enhanced text file. -/
inductive Artifact where
  | pdfDoc : List (List Char) → Nat → Artifact
  | txtDoc : List Char → Artifact
deriving DecidableEq

/-- export_pdf_with_status (src/new.py lines 577-768). The filesystem
and PDF library are oracles: outputOk and writtenSize model whether
pdf.output succeeded and the resulting file size (validated against the
100-byte floor of line 709), textExportOk whether the text fallback can
write. The body text is sanitized before the font check, exactly as the
source does at line 586. -/
def export_pdf_with_status (font : Option FontFile) (addFontOk : Bool)
    (outputOk : Bool) (writtenSize : Nat) (textExportOk : Bool)
    (ts : List Char) (text : List Char) : Option Artifact × ExportStatus :=
  if (pyStrip text).isEmpty then (none, ExportStatus.noContent)
  else
    let safe_text := clean_text_for_pdf text
    let font_loaded := fontUsable font addFontOk
    let cells := renderLines (splitOnNl safe_text)
    if outputOk && decide (100 < writtenSize) then
      (some (Artifact.pdfDoc cells writtenSize),
        cond font_loaded ExportStatus.pdfFull ExportStatus.pdfConverted)
    else
      if textExportOk then
        (some (Artifact.txtDoc (create_enhanced_text_export ts text)),
          ExportStatus.downgradedText)
      else (none, ExportStatus.failed)

/-! ### Length-policy properties -/

theorem countWords_append (s t : List Char) :
    countWords (s ++ t) = countWords s + countWords t := by
  simp [countWords, List.filter_append]

theorem splitSent_ne_nil (s : List Char) : splitSent s ≠ [] := by
  cases s with
  | nil => simp [splitSent]
  | cons c rest =>
    rw [splitSent]
    cases sentEnd c <;> simp

theorem splitSent_flatten (s : List Char) : (splitSent s).flatten = s := by
  induction s with
  | nil => rfl
  | cons c rest ih =>
    rw [splitSent]
    obtain ⟨q, qs, hq⟩ := List.exists_cons_of_ne_nil (splitSent_ne_nil rest)
    rw [hq] at ih ⊢
    simp only [List.flatten_cons] at ih
    cases sentEnd c with
    | true =>
      simp only [Bool.cond_true, List.flatten_cons]
      simp [ih]
    | false =>
      simp only [Bool.cond_false, List.headD_cons, List.tail_cons, List.flatten_cons]
      simp [ih]

/-- All pieces of a sentence split except the last end with a
sentence-final mark. -/
def piecesOK : List (List Char) → Prop
  | [] => True
  | [_] => True
  | p :: q :: ps => (∃ c, p.getLast? = some c ∧ sentEnd c = true) ∧ piecesOK (q :: ps)

theorem splitSent_piecesOK (s : List Char) : piecesOK (splitSent s) := by
  induction s with
  | nil => trivial
  | cons c rest ih =>
    rw [splitSent]
    obtain ⟨q, qs, hq⟩ := List.exists_cons_of_ne_nil (splitSent_ne_nil rest)
    rw [hq] at ih ⊢
    cases hb : sentEnd c with
    | true => exact ⟨⟨c, rfl, hb⟩, ih⟩
    | false =>
      simp only [Bool.cond_false, List.headD_cons, List.tail_cons]
      cases qs with
      | nil => trivial
      | cons r rs =>
        obtain ⟨⟨c', hc', hs'⟩, hrest⟩ := ih
        cases q with
        | nil => simp at hc'
        | cons q0 q' =>
          exact ⟨⟨c', by rw [List.getLast?_cons_cons]; exact hc', hs'⟩, hrest⟩

/-- The text ends with a sentence-final mark. -/
def endsSentence (l : List Char) : Prop :=
  ∃ c, l.getLast? = some c ∧ sentEnd c = true

theorem trunc_count (tm : Nat) : ∀ pieces acc cnt, cnt = countWords acc → cnt ≤ tm →
    countWords (truncateLoop pieces acc cnt tm) ≤ tm := by
  intro pieces
  induction pieces with
  | nil =>
    intro acc cnt h1 h2
    rw [truncateLoop, ← h1]
    exact h2
  | cons p ps ih =>
    intro acc cnt h1 h2
    rw [truncateLoop]
    by_cases hb : tm < cnt + countWords p
    · rw [if_pos hb, ← h1]
      exact h2
    · rw [if_neg hb]
      exact ih (acc ++ p) (cnt + countWords p) (by rw [countWords_append, h1]) (by omega)

theorem trunc_take (tm : Nat) : ∀ pieces acc cnt,
    ∃ k, truncateLoop pieces acc cnt tm = acc ++ (pieces.take k).flatten := by
  intro pieces
  induction pieces with
  | nil =>
    intro acc cnt
    exact ⟨0, by simp [truncateLoop]⟩
  | cons p ps ih =>
    intro acc cnt
    by_cases hb : tm < cnt + countWords p
    · exact ⟨0, by simp [truncateLoop, hb]⟩
    · obtain ⟨k, hk⟩ := ih (acc ++ p) (cnt + countWords p)
      refine ⟨k + 1, ?_⟩
      rw [truncateLoop, if_neg hb, hk, List.take_succ_cons, List.flatten_cons,
        List.append_assoc]

theorem trunc_ends (tm : Nat) : ∀ pieces acc cnt,
    piecesOK pieces →
    (acc = [] ∨ endsSentence acc) →
    tm < cnt + countWords pieces.flatten →
    truncateLoop pieces acc cnt tm = [] ∨ endsSentence (truncateLoop pieces acc cnt tm) := by
  intro pieces
  induction pieces with
  | nil =>
    intro acc cnt _ hacc _
    rw [truncateLoop]
    exact hacc
  | cons p ps ih =>
    intro acc cnt hOK hacc hsum
    rw [truncateLoop]
    by_cases hb : tm < cnt + countWords p
    · rw [if_pos hb]
      exact hacc
    · rw [if_neg hb]
      cases ps with
      | nil =>
        exfalso
        simp only [List.flatten_cons, List.flatten_nil, List.append_nil] at hsum
        omega
      | cons q qs =>
        apply ih (acc ++ p) (cnt + countWords p)
        · exact hOK.2
        · right
          obtain ⟨⟨c, hc, hs⟩, _⟩ := hOK
          refine ⟨c, ?_, hs⟩
          obtain ⟨p0, p', hp⟩ := List.exists_cons_of_ne_nil
            (fun hnil => by rw [hnil] at hc; simp at hc : p ≠ [])
          rw [hp] at hc ⊢
          rw [List.getLast?_append_cons]
          exact hc
        · rw [List.flatten_cons, countWords_append] at hsum
          omega

theorem pyStrip_sublist (l : List Char) : (pyStrip l).Sublist l := by
  unfold pyStrip
  have h2 : (((l.dropWhile pyIsSpace).reverse.dropWhile pyIsSpace).reverse).Sublist
      ((l.dropWhile pyIsSpace).reverse.reverse) :=
    List.reverse_sublist.mpr (List.dropWhile_suffix pyIsSpace).sublist
  rw [List.reverse_reverse] at h2
  exact h2.trans (List.dropWhile_suffix pyIsSpace).sublist

theorem countWords_pyStrip_le (l : List Char) : countWords (pyStrip l) ≤ countWords l :=
  List.Sublist.length_le ((pyStrip_sublist l).filter _)

theorem getLast?_dropWhile_of_not {l : List Char} {c : Char}
    (h : l.getLast? = some c) (hc : pyIsSpace c = false) :
    (l.dropWhile pyIsSpace).getLast? = some c := by
  induction l with
  | nil => simp at h
  | cons a rest ih =>
    cases rest with
    | nil =>
      simp only [List.getLast?_singleton, Option.some.injEq] at h
      subst h
      rw [List.dropWhile_cons, if_neg (by simp [hc])]
      rfl
    | cons b r =>
      rw [List.getLast?_cons_cons] at h
      rw [List.dropWhile_cons]
      by_cases ha : pyIsSpace a = true
      · rw [if_pos ha]
        exact ih h
      · rw [if_neg ha, List.getLast?_cons_cons]
        exact h

theorem pyStrip_getLast? {l : List Char} {c : Char}
    (h : l.getLast? = some c) (hc : pyIsSpace c = false) :
    (pyStrip l).getLast? = some c := by
  unfold pyStrip
  have h1 := getLast?_dropWhile_of_not h hc
  have h2 : (l.dropWhile pyIsSpace).reverse.head? = some c := by
    rw [List.head?_reverse]
    exact h1
  obtain ⟨t, ht⟩ : ∃ t, (l.dropWhile pyIsSpace).reverse = c :: t := by
    cases hm : (l.dropWhile pyIsSpace).reverse with
    | nil => rw [hm] at h2; simp at h2
    | cons d t =>
      rw [hm] at h2
      simp only [List.head?_cons, Option.some.injEq] at h2
      exact ⟨t, by rw [h2]⟩
  rw [ht, List.dropWhile_cons, if_neg (by simp [hc]), List.getLast?_reverse]
  rfl

theorem sentEnd_not_ws {c : Char} (h : sentEnd c = true) : pyIsSpace c = false := by
  simp only [sentEnd, Bool.or_eq_true, beq_iff_eq] at h
  rcases h with (rfl | rfl) | rfl <;> decide

theorem adjust_truncation_branch (apiKey : Option (List Char)) (net : NetResult)
    (script : List Char) (W : Nat) (hW : W ≠ 0)
    (hgt : W + 100 < countWords script) :
    (adjust_script_length apiKey net script W).1
      = pyStrip (truncateLoop (splitSent script) [] 0 (W + 100)) := by
  simp only [adjust_script_length]
  rw [if_neg hW, if_neg (by omega), if_pos hgt]

theorem containsSub_append_left {pat s : List Char} (h : containsSub pat s = true)
    (t : List Char) : containsSub pat (s ++ t) = true := by
  induction s with
  | nil =>
    have hp : pat = [] := by
      rw [containsSub] at h
      exact List.isEmpty_iff.mp h
    subst hp
    cases t with
    | nil => rfl
    | cons a r =>
      rw [List.nil_append, containsSub]
      simp [isPrefixOf_iff]
  | cons c rest ih =>
    rw [containsSub] at h
    rw [List.cons_append, containsSub]
    rcases Bool.or_eq_true_iff.mp h with hpre | hsub
    · rw [isPrefixOf_iff] at hpre
      have hthis : pat.isPrefixOf (c :: (rest ++ t)) = true := by
        rw [isPrefixOf_iff]
        exact hpre.trans ⟨t, rfl⟩
      rw [hthis]
      rfl
    · rw [ih hsub]
      simp

/-- Claim C1 (amended): for a script below the target, the expansion
branch issues exactly one follow-up request, at temperature 7/10; the
follow-up answer is kept unless it carries the error marker 出错, in
which case the original text is kept. Every exception-path error string
carries the marker, so the original survives those failures, but the
missing-API-key configuration error does not carry it and is returned in
place of the original. -/
theorem c1_expansion_amended (apiKey : Option (List Char)) (net : NetResult)
    (script : List Char) (W : Nat) (hW : W ≠ 0) (hlt : countWords script < W) :
    (adjust_script_length apiKey net script W).2
        = [⟨expandPrompt W (W + 100) script, (7 : ℚ) / 10⟩]
    ∧ (adjust_script_length apiKey net script W).1
        = cond (containsSub errMarker
            (call_deepseek_api apiKey net (expandPrompt W (W + 100) script) ((7 : ℚ) / 10)))
            script
            (call_deepseek_api apiKey net (expandPrompt W (W + 100) script) ((7 : ℚ) / 10))
    ∧ (∀ e, containsSub errMarker (deepseekExcPrefix ++ e) = true)
    ∧ containsSub errMarker deepseekMissingKeyMsg = false := by
  refine ⟨?_, ?_, ?_, by decide⟩
  · simp only [adjust_script_length]
    rw [if_neg hW, if_pos hlt]
  · simp only [adjust_script_length]
    rw [if_neg hW, if_pos hlt]
  · intro e
    exact containsSub_append_left (by decide) e

/-- Witness for the amended claim C1 at a concrete input: with no API
key configured, the single follow-up is recorded and the configuration
error string, which lacks the marker, comes back in place of the
original script. -/
theorem c1_expansion_amended_witness :
    ((300 : Nat) ≠ 0 ∧ countWords "好".data < 300)
    ∧ ((adjust_script_length none (NetResult.ok []) "好".data 300).2
        = [⟨expandPrompt 300 400 "好".data, (7 : ℚ) / 10⟩]
      ∧ (adjust_script_length none (NetResult.ok []) "好".data 300).1
          = cond (containsSub errMarker
              (call_deepseek_api none (NetResult.ok []) (expandPrompt 300 400 "好".data) ((7 : ℚ) / 10)))
              "好".data
              (call_deepseek_api none (NetResult.ok []) (expandPrompt 300 400 "好".data) ((7 : ℚ) / 10))
      ∧ (∀ e, containsSub errMarker (deepseekExcPrefix ++ e) = true)
      ∧ containsSub errMarker deepseekMissingKeyMsg = false) :=
  ⟨⟨by decide, by decide⟩,
   c1_expansion_amended none (NetResult.ok []) "好".data 300 (by decide) (by decide)⟩

/-- Counterexample to claim C1 as stated: with the API key missing, the
follow-up request reports the configuration error, yet adjust_script_length
returns that error string rather than the original unexpanded text. -/
theorem c1_expansion_counterexample :
    (adjust_script_length none (NetResult.ok []) "剧本".data 300).1 = deepseekMissingKeyMsg
    ∧ deepseekMissingKeyMsg ≠ "剧本".data := by
  constructor
  · rfl
  · decide

/-- Claim C2 (amended): when the ideographic count strictly exceeds the
ceiling W + 100, the truncation keeps a prefix of whole sentences (never
cutting mid-sentence), the result counts at most W + 100 ideographs (the
ceiling itself is attainable), and the result is empty or ends with a
sentence-final mark. -/
theorem c2_truncation_amended (apiKey : Option (List Char)) (net : NetResult)
    (script : List Char) (W : Nat) (hW : W ≠ 0)
    (hgt : W + 100 < countWords script) :
    countWords (adjust_script_length apiKey net script W).1 ≤ W + 100
    ∧ (∃ k, (adjust_script_length apiKey net script W).1
        = pyStrip (((splitSent script).take k).flatten))
    ∧ ((adjust_script_length apiKey net script W).1 = []
        ∨ endsSentence (adjust_script_length apiKey net script W).1) := by
  have hb := adjust_truncation_branch apiKey net script W hW hgt
  rw [hb]
  refine ⟨?_, ?_, ?_⟩
  · exact le_trans (countWords_pyStrip_le _)
      (trunc_count (W + 100) (splitSent script) [] 0 rfl (by omega))
  · obtain ⟨k, hk⟩ := trunc_take (W + 100) (splitSent script) [] 0
    exact ⟨k, by rw [hk, List.nil_append]⟩
  · have hsum : W + 100 < 0 + countWords (splitSent script).flatten := by
      rw [splitSent_flatten]
      omega
    have hres := trunc_ends (W + 100) (splitSent script) [] 0
      (splitSent_piecesOK script) (Or.inl rfl) hsum
    rcases hres with h0 | ⟨c, hc, hs⟩
    · left
      rw [h0]
      rfl
    · right
      exact ⟨c, pyStrip_getLast? hc (sentEnd_not_ws hs), hs⟩

/-- Witness for the amended claim C2 at a concrete input of 102
one-ideograph sentences against target 1: the truncation keeps 101 whole
sentences. -/
theorem c2_truncation_amended_witness :
    ((1 : Nat) ≠ 0 ∧ 1 + 100 < countWords (List.replicate 102 ['好', '。']).flatten)
    ∧ (countWords (adjust_script_length none (NetResult.ok [])
          (List.replicate 102 ['好', '。']).flatten 1).1 ≤ 1 + 100
      ∧ (∃ k, (adjust_script_length none (NetResult.ok [])
            (List.replicate 102 ['好', '。']).flatten 1).1
          = pyStrip (((splitSent (List.replicate 102 ['好', '。']).flatten).take k).flatten))
      ∧ ((adjust_script_length none (NetResult.ok [])
            (List.replicate 102 ['好', '。']).flatten 1).1 = []
        ∨ endsSentence (adjust_script_length none (NetResult.ok [])
            (List.replicate 102 ['好', '。']).flatten 1).1)) :=
  ⟨⟨by decide, by decide⟩,
   c2_truncation_amended none (NetResult.ok []) (List.replicate 102 ['好', '。']).flatten 1
     (by decide) (by decide)⟩

/-- Counterexample to claim C2 as stated: a script whose ideographic
count equals W + 100 exactly (count 101 against target W = 1) triggers no
truncation at all — the code truncates only on a strictly greater count —
so the result count is not strictly below W + 100. -/
theorem c2_truncation_counterexample :
    countWords (List.replicate 101 '好') = 1 + 100
    ∧ (adjust_script_length none (NetResult.ok []) (List.replicate 101 '好') 1).1
        = List.replicate 101 '好'
    ∧ ¬ countWords (adjust_script_length none (NetResult.ok [])
        (List.replicate 101 '好') 1).1 < 1 + 100 := by
  refine ⟨by decide, by decide, by decide⟩

/-- Counterexample to claim C7 as stated: the character U+9FC3 lies in
the CJK Unified Ideographs block U+4E00..U+9FFF, yet count_words does not
count it — its regex class stops at U+9FA5. -/
theorem c7_count_words_counterexample :
    countWords [Char.ofNat 0x9FC3] ≠ countIdeographsSpec [Char.ofNat 0x9FC3]
    ∧ countIdeographsSpec [Char.ofNat 0x9FC3] = 1 := by
  constructor
  · decide
  · decide

/-- Claim C7 (amended): count_words counts exactly the code points in
U+4E00..U+9FA5, a proper subrange of the CJK Unified Ideographs block:
the worked example counts 2, the count is additive, characters outside
the subrange contribute nothing, and the count never exceeds the count
over the full block. -/
theorem c7_count_words_amended :
    countWords "你好, world! 123".data = 2
    ∧ (∀ s t : List Char, countWords (s ++ t) = countWords s + countWords t)
    ∧ (∀ s : List Char,
        countWords (s.filter (fun c =>
          decide (c.toNat < 0x4E00) || decide (0x9FA5 < c.toNat))) = 0)
    ∧ (∀ s : List Char, countWords s ≤ countIdeographsSpec s) := by
  refine ⟨by decide, countWords_append, ?_, ?_⟩
  · intro s
    simp only [countWords, List.filter_filter, List.length_eq_zero]
    rw [List.filter_eq_nil_iff]
    intro a _
    simp only [Bool.and_eq_true, Bool.or_eq_true, decide_eq_true_eq]
    omega
  · intro s
    induction s with
    | nil => simp [countWords, countIdeographsSpec]
    | cons c rest ih =>
      simp only [countWords, countIdeographsSpec, List.filter_cons] at ih ⊢
      split
      · next h1 =>
        split
        · next h2 =>
          simp only [List.length_cons]
          omega
        · next h2 =>
          exfalso
          simp only [Bool.and_eq_true, decide_eq_true_eq] at h1
          exact h2 (by simp only [Bool.and_eq_true, decide_eq_true_eq]; omega)
      · next h1 =>
        split
        · next h2 =>
          simp only [List.length_cons]
          omega
        · next h2 => exact ih

/-- Claim C6: the text export is lossless — reading back the region of
the written content between the decorative header and the footer yields
exactly the input text, for every timestamp and every input. -/
theorem c6_text_export_lossless (ts text : List Char) :
    extractBetween (exportHeader ts (countWords text)).length exportFooter.length
      (create_enhanced_text_export ts text) = text := by
  unfold extractBetween create_enhanced_text_export
  rw [List.append_assoc, List.drop_left]
  have harr : (exportHeader ts (countWords text) ++ (text ++ exportFooter)).length
      - (exportHeader ts (countWords text)).length - exportFooter.length = text.length := by
    simp only [List.length_append]
    omega
  rw [harr, List.take_left]

/-- Claim C8: a duplicate add — the stripped (name, role_type) pair
matches an existing record case-insensitively — is rejected with the
duplicate message, the character list is returned unchanged, and the
persisted file is not written. -/
theorem c8_duplicate_add_rejected (chars : List Character) (inputs : Profile)
    (hname : (pyStrip inputs.name).isEmpty = false)
    (hdup : character_exists chars (pyStrip inputs.name) (pyStrip inputs.role_type) = true) :
    add_character_handler chars inputs = (chars, false, HandlerMsg.duplicate) := by
  simp only [add_character_handler]
  rw [if_neg (by simp [hname]), if_pos hdup]

/-- Witness for claim C8: adding li/hero after Li/Hero is rejected as a
duplicate, leaving the store and the save flag untouched. -/
theorem c8_duplicate_add_rejected_witness :
    ((pyStrip ("li".data : List Char)).isEmpty = false
      ∧ character_exists [⟨"Li".data, "Hero".data, [], [], [], [], [], [], none⟩]
          (pyStrip "li".data) (pyStrip "hero".data) = true)
    ∧ add_character_handler [⟨"Li".data, "Hero".data, [], [], [], [], [], [], none⟩]
        ⟨"li".data, "hero".data, [], [], [], [], [], []⟩
      = ([⟨"Li".data, "Hero".data, [], [], [], [], [], [], none⟩], false,
         HandlerMsg.duplicate) :=
  ⟨⟨by decide, by decide⟩,
   c8_duplicate_add_rejected [⟨"Li".data, "Hero".data, [], [], [], [], [], [], none⟩]
     ⟨"li".data, "hero".data, [], [], [], [], [], []⟩ (by decide) (by decide)⟩

/-- Claim C9: an in-range update stores the new field values at the
index, keeps the avatar blob previously stored there, leaves every other
record untouched and the length unchanged, and saves. -/
theorem c9_update_preserves_avatar (chars : List Character) (i : Nat)
    (hi : i < chars.length) (data : Profile) :
    ∃ old, chars[i]? = some old
      ∧ ((update_character chars (i : Int) data).1)[i]?
          = some ⟨data.name, data.role_type, data.age, data.appearance,
              data.personality, data.background_story, data.habits, data.relationships,
              old.avatar_image⟩
      ∧ (∀ j : Nat, j ≠ i → ((update_character chars (i : Int) data).1)[j]? = chars[j]?)
      ∧ (update_character chars (i : Int) data).2 = true
      ∧ ((update_character chars (i : Int) data).1).length = chars.length := by
  have hcond : 0 ≤ (i : Int) ∧ (i : Int) < (chars.length : Int) := by
    constructor
    · exact Int.ofNat_nonneg i
    · exact_mod_cast hi
  have htn : (i : Int).toNat = i := Int.toNat_ofNat i
  refine ⟨chars.get ⟨i, hi⟩, ?_, ?_, ?_, ?_, ?_⟩
  · rw [List.getElem?_eq_getElem hi]
    rfl
  · simp only [update_character]
    rw [dif_pos hcond]
    simp only [htn]
    rw [List.getElem?_set_eq_of_lt _ (by simpa using hi)]
  · intro j hj
    simp only [update_character]
    rw [dif_pos hcond]
    simp only [htn]
    rw [List.getElem?_set_ne (fun he => hj he.symm)]
  · simp only [update_character]
    rw [dif_pos hcond]
  · simp only [update_character]
    rw [dif_pos hcond]
    simp [htn]

/-- Witness for claim C9 at a one-record store carrying a portrait. -/
theorem c9_update_preserves_avatar_witness :
    (0 : Nat) < ([⟨"Li".data, "Hero".data, [], [], [], [], [], [], some "IMG".data⟩]
        : List Character).length
    ∧ ∃ old,
        ([⟨"Li".data, "Hero".data, [], [], [], [], [], [], some "IMG".data⟩]
          : List Character)[0]? = some old
      ∧ ((update_character [⟨"Li".data, "Hero".data, [], [], [], [], [], [], some "IMG".data⟩]
            ((0 : Nat) : Int) ⟨"Wu".data, "Foe".data, [], [], [], [], [], []⟩).1)[0]?
          = some ⟨"Wu".data, "Foe".data, [], [], [], [], [], [], old.avatar_image⟩
      ∧ (∀ j : Nat, j ≠ 0 →
          ((update_character [⟨"Li".data, "Hero".data, [], [], [], [], [], [], some "IMG".data⟩]
              ((0 : Nat) : Int) ⟨"Wu".data, "Foe".data, [], [], [], [], [], []⟩).1)[j]?
            = ([⟨"Li".data, "Hero".data, [], [], [], [], [], [], some "IMG".data⟩]
                : List Character)[j]?)
      ∧ (update_character [⟨"Li".data, "Hero".data, [], [], [], [], [], [], some "IMG".data⟩]
            ((0 : Nat) : Int) ⟨"Wu".data, "Foe".data, [], [], [], [], [], []⟩).2 = true
      ∧ ((update_character [⟨"Li".data, "Hero".data, [], [], [], [], [], [], some "IMG".data⟩]
            ((0 : Nat) : Int) ⟨"Wu".data, "Foe".data, [], [], [], [], [], []⟩).1).length
          = ([⟨"Li".data, "Hero".data, [], [], [], [], [], [], some "IMG".data⟩]
              : List Character).length :=
  ⟨by decide,
   c9_update_preserves_avatar [⟨"Li".data, "Hero".data, [], [], [], [], [], [], some "IMG".data⟩]
     0 (by decide) ⟨"Wu".data, "Foe".data, [], [], [], [], [], []⟩⟩

/-- Claim C10: for every index outside the valid range, the three
index-based store operations are silent no-ops — the list is returned
unchanged and the persisted file is not written. -/
theorem c10_out_of_range_noop (chars : List Character) (i : Int)
    (h : i < 0 ∨ (chars.length : Int) ≤ i) (data : Profile) (img : List Char) :
    update_character chars i data = (chars, false)
    ∧ update_character_image chars i img = (chars, false)
    ∧ delete_character chars i = (chars, false) := by
  have hc : ¬(0 ≤ i ∧ i < (chars.length : Int)) := by omega
  refine ⟨?_, ?_, ?_⟩
  · simp only [update_character]
    rw [dif_neg hc]
  · simp only [update_character_image]
    rw [dif_neg hc]
  · simp only [delete_character]
    rw [if_neg hc]

/-- Witness for claim C10 at index -1 of a one-record store. -/
theorem c10_out_of_range_noop_witness :
    ((-1 : Int) < 0 ∨ (([⟨"Li".data, "Hero".data, [], [], [], [], [], [], none⟩]
        : List Character).length : Int) ≤ -1)
    ∧ update_character [⟨"Li".data, "Hero".data, [], [], [], [], [], [], none⟩] (-1)
          ⟨"Wu".data, "Foe".data, [], [], [], [], [], []⟩
        = ([⟨"Li".data, "Hero".data, [], [], [], [], [], [], none⟩], false)
    ∧ update_character_image [⟨"Li".data, "Hero".data, [], [], [], [], [], [], none⟩] (-1)
          "IMG".data
        = ([⟨"Li".data, "Hero".data, [], [], [], [], [], [], none⟩], false)
    ∧ delete_character [⟨"Li".data, "Hero".data, [], [], [], [], [], [], none⟩] (-1)
        = ([⟨"Li".data, "Hero".data, [], [], [], [], [], [], none⟩], false) :=
  ⟨Or.inl (by decide),
   (c10_out_of_range_noop [⟨"Li".data, "Hero".data, [], [], [], [], [], [], none⟩] (-1)
     (Or.inl (by decide)) ⟨"Wu".data, "Foe".data, [], [], [], [], [], []⟩ "IMG".data).1,
   (c10_out_of_range_noop [⟨"Li".data, "Hero".data, [], [], [], [], [], [], none⟩] (-1)
     (Or.inl (by decide)) ⟨"Wu".data, "Foe".data, [], [], [], [], [], []⟩ "IMG".data).2.1,
   (c10_out_of_range_noop [⟨"Li".data, "Hero".data, [], [], [], [], [], [], none⟩] (-1)
     (Or.inl (by decide)) ⟨"Wu".data, "Foe".data, [], [], [], [], [], []⟩ "IMG".data).2.2⟩

/-- Claim C5: with an unusable font asset — missing, at or below the
1000000-byte threshold, or carrying the Git LFS pointer signature in its
leading bytes — the PDF export is a total function of its oracles (never
an exception), and when the PDF library writes a file above the
100-byte validation floor for non-blank input, the artifact holds the
body rendered from the sanitized text and the degraded converted-mode
status is reported, not a failure. -/
theorem c5_pdf_unusable_font (font : Option FontFile) (addFontOk outputOk : Bool)
    (writtenSize : Nat) (textExportOk : Bool) (ts text : List Char)
    (hfont : font = none ∨ ∃ f, font = some f ∧
        (f.size ≤ 1000000 ∨ containsSub lfsSig (f.headerBytes.take 100) = true))
    (htext : (pyStrip text).isEmpty = false)
    (hout : outputOk = true) (hsize : 100 < writtenSize) :
    export_pdf_with_status font addFontOk outputOk writtenSize textExportOk ts text
      = (some (Artifact.pdfDoc (renderLines (splitOnNl (clean_text_for_pdf text))) writtenSize),
         ExportStatus.pdfConverted) := by
  have hfl : fontUsable font addFontOk = false := by
    rcases hfont with rfl | ⟨f, rfl, hf⟩
    · rfl
    · show (bif decide (1000000 < f.size)
          then bif containsSub lfsSig (f.headerBytes.take 100) then false else addFontOk
          else false) = false
      rcases hf with hf | hf
      · rw [decide_eq_false (by omega)]
        rfl
      · cases hdec : decide (1000000 < f.size) with
        | false => rfl
        | true => rw [hf]; rfl
  simp only [export_pdf_with_status]
  rw [if_neg (by simp [htext]), hout]
  rw [if_pos (by simp [hsize]), hfl]
  rfl

/-- Witness for claim C5: an undersized 100-byte font file, non-blank
input, and a successfully written 200-byte artifact. -/
theorem c5_pdf_unusable_font_witness :
    ((some (⟨100, []⟩ : FontFile) = none ∨ ∃ f, some (⟨100, []⟩ : FontFile) = some f ∧
        (f.size ≤ 1000000 ∨ containsSub lfsSig (f.headerBytes.take 100) = true))
      ∧ (pyStrip "hi".data).isEmpty = false ∧ (100 : Nat) < 200)
    ∧ export_pdf_with_status (some ⟨100, []⟩) true true 200 true [] "hi".data
        = (some (Artifact.pdfDoc (renderLines (splitOnNl (clean_text_for_pdf "hi".data))) 200),
           ExportStatus.pdfConverted) :=
  ⟨⟨Or.inr ⟨⟨100, []⟩, rfl, Or.inl (by decide)⟩, by decide, by omega⟩,
   c5_pdf_unusable_font (some ⟨100, []⟩) true true 200 true [] "hi".data
     (Or.inr ⟨⟨100, []⟩, rfl, Or.inl (by decide)⟩) (by decide) rfl (by omega)⟩
